import Mathlib

/-!
Verification of the gta-backend repository (Deno/Oak REST API with WebSocket
channels, backed by SQLite/PostgreSQL).

The development shallowly embeds the parts of the code the claims are about:

* `Ws` / `WsReviews` / `WsChat` - the in-memory WebSocket connection
  registries and broadcast functions of `src/websockets/reviews.ts`
  (the file also contains the chat implementation).
* `ReviewsDb` / `GameService` / `ReviewRoutes` - the `game_reviews` table
  together with the service layer (`src/services/game-service.ts`) and the
  ad hoc review router (reviews route file).
* `Validation` - the Zod review schema of `src/utils/validation.ts` with the
  `RATINGS` constants from the config file.
* `Schema` - the `user_game_ratings` DDL of `schema.sql`.
* `GamesRoutes` - the two rating endpoints of `src/routes/games.ts`.
* `UserService` - the user service returning password-stripped user objects.

JavaScript numbers are modelled as `Rat`; `toFixed(1)` is idealised as
round-half-up on the exact rational value, returned as an integer number of
tenths. Database tables are lists of rows; SQL statements are translated to
the corresponding list operations.
-/

set_option autoImplicit false

namespace GtaBackend

/-! ## Shared WebSocket connection model -/

namespace Ws

/-- The `readyState` values of the WHATWG `WebSocket` class, named as the
constants the source compares against (`WebSocket.OPEN` etc.). -/
inductive ReadyState where
  | CONNECTING
  | OPEN
  | CLOSING
  | CLOSED
  deriving DecidableEq, Repr

/-- A socket handle as seen by the broadcast code: its current `readyState`
and whether a `send` call on it succeeds (`sendOk = false` models a `send`
that throws). -/
structure Conn where
  readyState : ReadyState
  sendOk : Bool
  deriving DecidableEq, Repr

/-- A connection registry: the entry list of a `Map<string, WebSocket>`
keyed by generated client id. -/
abbrev Registry := List (String × Conn)

end Ws

/-! ## Review-notification WebSockets (`src/websockets/reviews.ts`) -/

namespace WsReviews

open Ws

/-- The loop body of `broadcastReviewNotification`: the accumulator holds the
ids `send` was called on and the `clientsToRemove` list.  An `OPEN` client is
sent to (a throwing send is caught and the id pushed onto `clientsToRemove`);
a `CLOSED` or `CLOSING` client is marked for removal; anything else is left
alone. -/
def broadcastStep (acc : List String × List String) (p : String × Conn) :
    List String × List String :=
  if p.2.readyState = ReadyState.OPEN then
    if p.2.sendOk then (acc.1 ++ [p.1], acc.2)
    else (acc.1 ++ [p.1], acc.2 ++ [p.1])
  else if p.2.readyState = ReadyState.CLOSED ∨ p.2.readyState = ReadyState.CLOSING then
    (acc.1, acc.2 ++ [p.1])
  else
    acc

/-- `broadcastReviewNotification`: scan the registry sending the serialised
notification, then delete every id collected in `clientsToRemove`.  Returns
the ids `send` was called on and the registry after cleanup.  (The message
string itself plays no role in the registry dynamics and is omitted.) -/
def broadcastReviewNotification (reg : Registry) : List String × Registry :=
  let acc := reg.foldl broadcastStep ([], [])
  (acc.1, reg.filter (fun p => !acc.2.contains p.1))

/-- A connection survives the broadcast scan unless it is `CLOSED`, `CLOSING`,
or `OPEN` with a throwing `send`. -/
def keepAfterBroadcast (c : Conn) : Bool :=
  !(c.readyState = ReadyState.CLOSED ∨ c.readyState = ReadyState.CLOSING ∨
    (c.readyState = ReadyState.OPEN ∧ c.sendOk = false) : Bool)

/-- Ids of the registered connections whose `readyState` is `OPEN`. -/
def openIds (reg : Registry) : List String :=
  (reg.filter (fun p => p.2.readyState = ReadyState.OPEN)).map Prod.fst

/-- Ids of the registered connections the broadcast scan marks for removal. -/
def staleIds (reg : Registry) : List String :=
  (reg.filter (fun p => !keepAfterBroadcast p.2)).map Prod.fst

/-- `Map.set` on the entry list: replace the value when the key is present,
append a fresh entry otherwise. -/
def listSet (reg : Registry) (k : String) (v : Conn) : Registry :=
  if reg.any (fun p => p.1 = k) then
    reg.map (fun p => if p.1 = k then (k, v) else p)
  else
    reg ++ [(k, v)]

/-- `Map.delete` on the entry list. -/
def listDelete (reg : Registry) (k : String) : Registry :=
  reg.filter (fun p => !(p.1 = k : Bool))

/-- The events that touch the review-client registry in
`src/websockets/reviews.ts`: a successful upgrade at `/ws/reviews` (which
stores the socket under a freshly generated UUID), the `onclose` and
`onerror` handlers installed on that socket, and a call to
`broadcastReviewNotification`. -/
inductive WsEvent where
  | upgradeConn (clientId : String) (ws : Conn)
  | closeFired (clientId : String)
  | errorFired (clientId : String)
  | broadcastFired
  deriving DecidableEq, Repr

/-- Registry transition of each event, read off the handler bodies:
`reviewClients.set` on upgrade, `reviewClients.delete` in `onclose` and
`onerror`, and the lazy cleanup of the broadcast scan. -/
def stepReview (reg : Registry) : WsEvent → Registry
  | .upgradeConn cid ws => listSet reg cid ws
  | .closeFired cid => listDelete reg cid
  | .errorFired cid => listDelete reg cid
  | .broadcastFired => (broadcastReviewNotification reg).2

/-- Whether an event is the firing of a connection's close or error handler. -/
def isHandlerRemoval : WsEvent → Bool
  | .closeFired _ => true
  | .errorFired _ => true
  | _ => false

end WsReviews

/-! ## Chat WebSockets (`broadcastMessage` in the same source file) -/

namespace WsChat

open Ws

/-- The send loop of the chat `broadcastMessage`: iterate over the values of
`chatClients`, calling `send` on every `OPEN` connection.  There is no
`try`/`catch` around the send, so a throwing `send` aborts the loop: the
`Except.error` case carries the ids sent to before the throw. -/
def chatSendLoop : Registry → List String → Except (List String) (List String)
  | [], sent => .ok sent
  | p :: rest, sent =>
    if p.2.readyState = ReadyState.OPEN then
      if p.2.sendOk then chatSendLoop rest (sent ++ [p.1])
      else .error sent
    else chatSendLoop rest sent

/-- The chat `broadcastMessage`: send to every `OPEN` connection; the
registry is never modified (no cleanup exists in this function), so both the
success and the propagated-exception outcome carry `reg` unchanged. -/
def broadcastMessage (reg : Registry) :
    Except (List String × Registry) (List String × Registry) :=
  match chatSendLoop reg [] with
  | .ok sent => .ok (sent, reg)
  | .error sent => .error (sent, reg)

/-- The chat registry an invocation of `broadcastMessage` leaves behind,
whether or not a send threw. -/
def registryAfter (reg : Registry) : Registry :=
  match broadcastMessage reg with
  | .ok x => x.2
  | .error x => x.2

end WsChat

/-! ## The `game_reviews` table -/

namespace ReviewsDb

/-- A row of the `game_reviews` table. -/
structure ReviewRow where
  id : Nat
  game_id : Nat
  user_id : Nat
  rating : Rat
  content : String
  created_at : Nat
  updated_at : Nat
  deriving DecidableEq, Repr

/-- The `game_reviews` table. -/
abbrev Table := List ReviewRow

/-- `SELECT ... FROM game_reviews gr ... WHERE gr.user_id = ? AND gr.game_id = ?`
(`GameService.getUserGameReview`); `result.rows[0] || null`. -/
def getUserGameReview (userId gameId : Nat) (t : Table) : Option ReviewRow :=
  t.find? (fun r => r.user_id = userId ∧ r.game_id = gameId)

/-- `SELECT ... FROM game_reviews gr ... WHERE gr.id = ?`
(`GameService.getReviewById`). -/
def getReviewById (id : Nat) (t : Table) : Option ReviewRow :=
  t.find? (fun r => r.id = id)

/-- `UPDATE game_reviews SET rating = ?, content = ?, updated_at = ? WHERE id = ?`. -/
def dbUpdateReview (t : Table) (id : Nat) (rating : Rat) (content : String)
    (now : Nat) : Table :=
  t.map (fun r => if r.id = id then { r with rating, content, updated_at := now } else r)

/-- `DELETE FROM game_reviews WHERE id = ?`. -/
def dbDeleteReview (t : Table) (id : Nat) : Table :=
  t.filter (fun r => !(r.id = id : Bool))

/-- At most one `game_reviews` row per `(user_id, game_id)` pair. -/
def uniquePerUserGame (t : Table) : Prop :=
  t.Pairwise (fun r s => ¬(r.user_id = s.user_id ∧ r.game_id = s.game_id))

instance uniquePerUserGameDecidable (t : Table) : Decidable (uniquePerUserGame t) := by
  unfold uniquePerUserGame; infer_instance

end ReviewsDb

/-! ## Game service (`src/services/game-service.ts`) -/

namespace GameService

open ReviewsDb

/-- Database-level errors the service throws. -/
inductive DbError where
  | notFound
  deriving DecidableEq, Repr

/-- `GameService.createOrUpdateReview`: check the game exists (the `games`
table is abstracted to its id list), look up the requester's existing review
of the game, and either `UPDATE` it in place or `INSERT` a fresh row (with
the database-assigned id `nextId`). -/
def createOrUpdateReview (games : List Nat) (userId gameId : Nat)
    (rating : Rat) (content : String) (nextId now : Nat) (t : Table) :
    Except DbError Table :=
  if games.contains gameId then
    match getUserGameReview userId gameId t with
    | some existing => .ok (dbUpdateReview t existing.id rating content now)
    | none => .ok (t ++ [⟨nextId, gameId, userId, rating, content, now, now⟩])
  else
    .error .notFound

/-- One review-submission operation (the arguments of one
`createOrUpdateReview` call, with the database-assigned fresh id and clock). -/
structure ReviewOp where
  userId : Nat
  gameId : Nat
  rating : Rat
  content : String
  nextId : Nat
  now : Nat
  deriving DecidableEq, Repr

/-- The table after one `createOrUpdateReview` call (a thrown
`NotFoundError` leaves the table untouched). -/
def applyReviewOp (games : List Nat) (t : Table) (op : ReviewOp) : Table :=
  match createOrUpdateReview games op.userId op.gameId op.rating op.content
      op.nextId op.now t with
  | .ok t' => t'
  | .error _ => t

/-- `GameService.deleteReview`: fetch the review by id, throw `NotFoundError`
when it is absent or owned by another user, otherwise delete it and report
whether a row was affected. -/
def deleteReview (userId reviewId : Nat) (t : Table) :
    Except DbError (Bool × Table) :=
  match getReviewById reviewId t with
  | none => .error .notFound
  | some review =>
    if review.user_id ≠ userId then .error .notFound
    else
      .ok (decide (0 < (t.filter (fun r => r.id = reviewId)).length),
           dbDeleteReview t reviewId)

/-- `GameService.getGameRatingStats`: check the game exists, then recompute
`COALESCE(AVG(rating), 0)` and `COUNT(id)` over the game's review rows and
return the average to one decimal place (as tenths) with the count. -/
def getGameRatingStats (games : List Nat) (gameId : Nat) (t : Table) :
    Except DbError (Int × Nat) :=
  if games.contains gameId then
    let rows := t.filter (fun r => r.game_id = gameId)
    let avg : Rat := if rows.length = 0 then 0
      else (rows.map ReviewRow.rating).sum / rows.length
    .ok (⌊avg * 10 + 1 / 2⌋, rows.length)
  else
    .error .notFound

/-- `validSortFields` of `getGamesWithRatings`/`getPopularGames`. -/
def validSortFields : List String := ["title", "release_date", "avg_rating", "review_count"]

/-- `validSortOrders` of `getGamesWithRatings`/`getPopularGames`. -/
def validSortOrders : List String := ["ASC", "DESC"]

/-- The pair interpolated into `ORDER BY ${actualSortBy} ${actualSortOrder}`
by `GameService.getGamesWithRatings`. -/
def gamesOrderBy (sortBy sortOrder : String) : String × String :=
  (if validSortFields.contains sortBy then sortBy else "title",
   if validSortOrders.contains sortOrder then sortOrder else "ASC")

/-- The pair interpolated into `ORDER BY ${actualSortField} ${actualSortOrder}`
by `GameService.getPopularGames`: strip a leading `-` (descending), map the
external field names, then whitelist. -/
def popularOrderBy (ordering : String) : String × String :=
  let fieldDir : String × String :=
    if ordering.startsWith "-" then (ordering.drop 1, "DESC") else (ordering, "ASC")
  let sortField :=
    if fieldDir.1 = "metacritic" then "avg_rating"
    else if fieldDir.1 = "released" then "release_date"
    else if fieldDir.1 = "name" then "title"
    else fieldDir.1
  (if validSortFields.contains sortField then sortField else "avg_rating",
   if validSortOrders.contains fieldDir.2 then fieldDir.2 else "DESC")

end GameService

/-! ## The review router (reviews route file, `router.post("/")` etc.) -/

namespace ReviewRoutes

open ReviewsDb

/-- The parsed JSON body of `POST /api/reviews`; absent fields are `none`
(`gameTitle`/`gameCoverUrl` do not touch the table and are omitted). -/
structure AddReviewBody where
  gameId : Option Nat
  content : Option String
  rating : Option Rat
  deriving DecidableEq, Repr

/-- `router.post("/")`: authenticate, validate `gameId` (JS falsiness:
missing or `0`), `content` (missing or blank after `trim`), and
`rating` (`!rating || rating < 1 || rating > 5`), then update the
requester's existing review of the game or insert a new row.  Returns the
HTTP status and the table afterwards. -/
def handleAddReview (user : Option (Nat × String)) (body : AddReviewBody)
    (nextId now : Nat) (t : Table) : Nat × Table :=
  match user with
  | none => (401, t)
  | some u =>
    if body.gameId = none ∨ body.gameId = some 0 then (400, t)
    else if body.content = none ∨ (body.content.getD "").trim = "" then (400, t)
    else
      match body.rating with
      | none => (400, t)
      | some rating =>
        if rating = 0 ∨ rating < 1 ∨ 5 < rating then (400, t)
        else
          match t.find? (fun r =>
              r.game_id = body.gameId.getD 0 ∧ r.user_id = u.1) with
          | some existing =>
            (201, dbUpdateReview t existing.id rating (body.content.getD "") now)
          | none =>
            (201, t ++ [⟨nextId, body.gameId.getD 0, u.1, rating,
              body.content.getD "", now, now⟩])

/-- `router.delete("/:id")`: authenticate, check a review with this id owned
by the requester exists (`WHERE id = ? AND user_id = ?`), answer 404
otherwise, else delete the row and answer 200. -/
def handleDeleteReview (user : Option (Nat × String)) (reviewId : Nat)
    (t : Table) : Nat × Table :=
  match user with
  | none => (401, t)
  | some u =>
    match t.find? (fun r => r.id = reviewId ∧ r.user_id = u.1) with
    | none => (404, t)
    | some _ => (200, dbDeleteReview t reviewId)

/-- The invalid-rating condition of the claim: the body's rating is missing,
below 1, or above 5 (a JS-falsy rating of `0` is also below 1). -/
def ratingInvalid : Option Rat → Prop
  | none => True
  | some q => q = 0 ∨ q < 1 ∨ 5 < q

instance ratingInvalidDecidable : (r : Option Rat) → Decidable (ratingInvalid r)
  | none => .isTrue trivial
  | some q => inferInstanceAs (Decidable (q = 0 ∨ q < 1 ∨ 5 < q))

end ReviewRoutes

/-! ## Validation layer (`src/utils/validation.ts`, config constants) -/

namespace Validation

/-- `RATINGS.MIN_RATING` from the constants file. -/
def MIN_RATING : Rat := 1

/-- `RATINGS.MAX_RATING` from the constants file. -/
def MAX_RATING : Rat := 5

/-- The `rating` check of `reviewCreationSchema`:
`z.number().int().min(RATINGS.MIN_RATING).max(RATINGS.MAX_RATING)`. -/
def reviewRatingCheck (q : Rat) : Prop :=
  q.den = 1 ∧ MIN_RATING ≤ q ∧ q ≤ MAX_RATING

instance (q : Rat) : Decidable (reviewRatingCheck q) := by
  unfold reviewRatingCheck; infer_instance

end Validation

/-! ## The `user_game_ratings` schema variant (`schema.sql`) -/

namespace Schema

/-- The column and table constraints appearing in the
`CREATE TABLE user_game_ratings` statement. -/
inductive SchemaConstraint where
  | primaryKey (col : String)
  | notNull (col : String)
  | checkRatingBetween (lo hi : Int)
  | checkStatusIn (vals : List String)
  | foreignKey (col refTable : String)
  | uniqueCols (cols : List String)
  deriving DecidableEq, Repr

/-- The constraints declared by the `user_game_ratings` DDL, in order. -/
def user_game_ratings_constraints : List SchemaConstraint :=
  [ .primaryKey "id",
    .notNull "user_id",
    .notNull "game_id",
    .checkRatingBetween 1 10,
    .checkStatusIn ["played", "playing", "want_to_play", "dropped"],
    .foreignKey "user_id" "users",
    .foreignKey "game_id" "games",
    .uniqueCols ["user_id", "game_id"] ]

end Schema

/-! ## Game rating routes (`src/routes/games.ts`) -/

namespace GamesRoutes

open ReviewsDb

/-- Models JS `parseFloat(x).toFixed(1)` on the exact rational value:
round half up to the nearest tenth, returned as tenths (so the string
`"0.0"` is `0`, `"4.3"` is `43`). -/
def toFixedTenths (q : Rat) : Int := ⌊q * 10 + 1 / 2⌋

/-- The per-game body `{ game_id, average_rating, rating_count }`
(`average_rating` as tenths, see `toFixedTenths`). -/
structure RatingsBody where
  game_id : Nat
  average_rating : Int
  rating_count : Nat
  deriving DecidableEq, Repr

/-- The JSON bodies these two routes produce. -/
inductive RouteBody where
  | ratings (b : RatingsBody)
  | ratingsList (l : List RatingsBody)
  | errorMsg (msg : String)
  deriving DecidableEq, Repr

/-- An HTTP response: status code and JSON body. -/
structure HttpResponse where
  status : Nat
  body : RouteBody
  deriving DecidableEq, Repr

/-- Average rating of game `g` over the table, as the `AVG(rating)` SQL
aggregate computes it (sum over count, over the game's rows). -/
def gameAvg (g : Nat) (t : Table) : Rat :=
  let rows := t.filter (fun r => r.game_id = g)
  (rows.map ReviewRow.rating).sum / rows.length

/-- Number of review rows of game `g`. -/
def gameCount (g : Nat) (t : Table) : Nat :=
  (t.filter (fun r => r.game_id = g)).length

/-- The `GROUP BY game_id` result rows of the all-games ratings query, one
per distinct `game_id` in the table. -/
def groupRatings (t : Table) : List RatingsBody :=
  ((t.map ReviewRow.game_id).dedup).map
    (fun g => ⟨g, toFixedTenths (gameAvg g t), gameCount g t⟩)

/-- `router.get("/ratings")` (all games).  `checkFails` / `mainFails` inject a
throw into the `COUNT(*)` query and the grouped ratings query.  The count
query's failure reaches the outer catch (500 with an error body); the
grouped query runs inside an inner `try` whose catch sets the body to `[]`
and leaves the default 200 status. -/
def handleAllRatings (t : Table) (checkFails mainFails : Bool) : HttpResponse :=
  if checkFails then ⟨500, .errorMsg "Failed to fetch game ratings"⟩
  else if t.length = 0 then ⟨200, .ratingsList []⟩
  else if mainFails then ⟨200, .ratingsList []⟩
  else ⟨200, .ratingsList (groupRatings t)⟩

/-- `router.get("/:gameId/ratings")`.  A falsy `gameId` parameter answers 400;
both queries run under the single outer `try`, so either failure answers 500
with the error body; a zero count answers `average_rating "0.0"` and
`rating_count 0`; otherwise the average and count are recomputed from the
game's rows.  (The source's second zero-count test re-checks the aggregate
count, which equals the first count.) -/
def handleGameRatings (gameId : Option Nat) (t : Table)
    (checkFails mainFails : Bool) : HttpResponse :=
  match gameId with
  | none => ⟨400, .errorMsg "Game ID is required"⟩
  | some g =>
    if checkFails then ⟨500, .errorMsg "Failed to fetch game ratings"⟩
    else if gameCount g t = 0 then ⟨200, .ratings ⟨g, 0, 0⟩⟩
    else if mainFails then ⟨500, .errorMsg "Failed to fetch game ratings"⟩
    else if gameCount g t = 0 then ⟨200, .ratings ⟨g, 0, 0⟩⟩
    else ⟨200, .ratings ⟨g, toFixedTenths (gameAvg g t), gameCount g t⟩⟩

/-- The per-game ratings body exactly as the claim describes it: zero count
gives `"0.0"`/0, otherwise the row count and the arithmetic mean of the
game's ratings to one decimal place.  (Spec-side definition, compared with
the handler.) -/
def specRatingsBody (g : Nat) (t : Table) : RatingsBody :=
  let rows := t.filter (fun r => r.game_id = g)
  if rows.length = 0 then ⟨g, 0, 0⟩
  else ⟨g, toFixedTenths ((rows.map ReviewRow.rating).sum / rows.length), rows.length⟩

end GamesRoutes

/-! ## User service (user service part file) -/

namespace UserService

/-- A row of the `users` table (`password` holds the bcrypt hash). -/
structure UserRow where
  id : Nat
  username : String
  email : String
  password : String
  created_at : Nat
  updated_at : Nat
  deriving DecidableEq, Repr

/-- The `users` table. -/
abbrev UsersTable := List UserRow

/-- A user object as returned to callers.  JS objects are maps: the
`const { password, ...userWithoutPassword } = user` destructuring removes
the `password` key, modelled as the optional field being `none`. -/
structure UserResult where
  id : Nat
  username : String
  email : String
  created_at : Nat
  updated_at : Nat
  password : Option String
  deriving DecidableEq, Repr

/-- The destructuring `const { password, ...userWithoutPassword } = user`. -/
def stripPassword (u : UserRow) : UserResult :=
  ⟨u.id, u.username, u.email, u.created_at, u.updated_at, none⟩

/-- Service-level errors thrown by the user service. -/
inductive SvcError where
  | conflict
  | notFound
  | unauthorized
  deriving DecidableEq, Repr

/-- `SELECT * FROM users WHERE username = ?` (`findByUsername`). -/
def findByUsername (username : String) (t : UsersTable) : Option UserRow :=
  t.find? (fun u => u.username = username)

/-- `SELECT * FROM users WHERE email = ?` (`findByEmail`). -/
def findByEmail (email : String) (t : UsersTable) : Option UserRow :=
  t.find? (fun u => u.email = email)

/-- `SELECT * FROM users WHERE id = ?` (`findById`). -/
def findById (id : Nat) (t : UsersTable) : Option UserRow :=
  t.find? (fun u => u.id = id)

/-- `UserService.createUser`: reject duplicate username or email, hash the
password, insert, re-fetch the row and return it without the password. -/
def createUser (hash : String → String)
    (username email pw : String) (nextId now : Nat) (t : UsersTable) :
    Except SvcError (UserResult × UsersTable) :=
  match findByUsername username t with
  | some _ => .error .conflict
  | none =>
    match findByEmail email t with
    | some _ => .error .conflict
    | none =>
      let t' := t ++ [⟨nextId, username, email, hash pw, now, now⟩]
      match findById nextId t' with
      | none => .error .notFound
      | some user => .ok (stripPassword user, t')

/-- `UserService.authenticate`: look the user up, verify the password, issue
a token (`tok`), and return the user without the password. -/
def authenticate (vp : String → String → Bool) (tok : Nat → String → String)
    (username pw : String) (t : UsersTable) :
    Except SvcError (UserResult × String) :=
  match findByUsername username t with
  | none => .error .unauthorized
  | some user =>
    if vp pw user.password then
      .ok (stripPassword user, tok user.id user.username)
    else
      .error .unauthorized

/-- The optional fields of `UserService.updateUser`'s input. -/
structure UserUpdateData where
  email : Option String
  password : Option String
  deriving DecidableEq, Repr

/-- `UPDATE users SET ... WHERE id = ?` applied to one row. -/
def applyUserUpdate (hash : String → String) (data : UserUpdateData) (now : Nat)
    (u : UserRow) : UserRow :=
  let u := { u with updated_at := now }
  let u := match data.email with
    | some e => { u with email := e }
    | none => u
  match data.password with
  | some p => { u with password := hash p }
  | none => u

/-- `UserService.updateUser`: 404 on a missing user, conflict on an email
already in use by a different row, otherwise update, re-fetch and return the
row without the password. -/
def updateUser (hash : String → String) (id : Nat) (data : UserUpdateData)
    (now : Nat) (t : UsersTable) : Except SvcError (UserResult × UsersTable) :=
  match findById id t with
  | none => .error .notFound
  | some existingUser =>
    let emailConflict : Bool :=
      match data.email with
      | some e => decide (e ≠ existingUser.email) && (findByEmail e t).isSome
      | none => false
    if emailConflict then .error .conflict
    else
      let t' := t.map (fun u => if u.id = id then applyUserUpdate hash data now u else u)
      match findById id t' with
      | none => .error .notFound
      | some updatedUser => .ok (stripPassword updatedUser, t')

/-- Insertion step of `ORDER BY created_at DESC`. -/
def insertDesc (u : UserRow) : List UserRow → List UserRow
  | [] => [u]
  | v :: rest =>
    if v.created_at ≤ u.created_at then u :: v :: rest else v :: insertDesc u rest

/-- `ORDER BY created_at DESC` as an insertion sort. -/
def sortByCreatedDesc : List UserRow → List UserRow
  | [] => []
  | u :: rest => insertDesc u (sortByCreatedDesc rest)

/-- `UserService.getAllUsers`: page through the rows ordered by
`created_at DESC` and strip every password. -/
def getAllUsers (limit offset : Nat) (t : UsersTable) :
    List UserResult × Nat :=
  let rows := ((sortByCreatedDesc t).drop offset).take limit
  (rows.map stripPassword, t.length)

end UserService

/-! ## Theorems -/

open Ws WsReviews WsChat ReviewsDb GameService ReviewRoutes Validation Schema
  GamesRoutes UserService

theorem broadcast_fold (reg : Registry) (s r : List String) :
    reg.foldl broadcastStep (s, r) = (s ++ openIds reg, r ++ staleIds reg) := by
  induction reg generalizing s r with
  | nil => simp [openIds, staleIds]
  | cons p rest ih =>
    rcases p with ⟨cid, c⟩
    rcases c with ⟨rs, ok⟩
    cases rs <;> cases ok <;>
      simp [broadcastStep, ih, openIds, staleIds, keepAfterBroadcast]

/-- Entries of a registry with `Nodup` keys are determined by their key. -/
theorem key_inj {reg : Registry} (h : (reg.map Prod.fst).Nodup)
    {p q : String × Conn} (hp : p ∈ reg) (hq : q ∈ reg) (hk : p.1 = q.1) :
    p = q := by
  induction reg with
  | nil => cases hp
  | cons a rest ih =>
    rw [List.map_cons, List.nodup_cons] at h
    rcases List.mem_cons.mp hp with rfl | hp' <;>
      rcases List.mem_cons.mp hq with rfl | hq'
    · rfl
    · exact absurd (hk.symm ▸ List.mem_map_of_mem Prod.fst hq') h.1
    · exact absurd (hk ▸ List.mem_map_of_mem Prod.fst hp') h.1
    · exact ih h.2 hp' hq'

/-- With `Nodup` keys, an entry's key is in `staleIds` iff the entry itself is
marked stale. -/
theorem mem_staleIds {reg : Registry} (h : (reg.map Prod.fst).Nodup)
    {p : String × Conn} (hp : p ∈ reg) :
    p.1 ∈ staleIds reg ↔ keepAfterBroadcast p.2 = false := by
  constructor
  · intro hmem
    rcases List.mem_map.mp hmem with ⟨q, hq, hkey⟩
    rcases List.mem_filter.mp hq with ⟨hqreg, hqstale⟩
    have : q = p := key_inj h hqreg hp hkey
    simpa [this] using hqstale
  · intro hstale
    exact List.mem_map_of_mem Prod.fst
      (List.mem_filter.mpr ⟨hp, by simp [hstale]⟩)

/-- The registry after a broadcast is the filter of the keep predicate. -/
theorem broadcast_registry_eq {reg : Registry} (h : (reg.map Prod.fst).Nodup) :
    (broadcastReviewNotification reg).2 = reg.filter (fun p => keepAfterBroadcast p.2) := by
  unfold broadcastReviewNotification
  rw [broadcast_fold]
  refine List.filter_congr ?_
  intro p hp
  have hiff := mem_staleIds h hp
  by_cases hkeep : keepAfterBroadcast p.2 = true
  · have hnot : p.1 ∉ staleIds reg := fun hm => by simp [hkeep] at hiff; exact hiff hm
    simp [List.elem_iff, hkeep, hnot]
  · have hstale : p.1 ∈ staleIds reg := hiff.mpr (by simpa using hkeep)
    simp only [Bool.not_eq_true] at hkeep
    simp [List.elem_iff, hkeep, hstale]

/-- The ids sent to are exactly those of the `OPEN` connections. -/
theorem broadcast_sent_eq (reg : Registry) :
    (broadcastReviewNotification reg).1 = openIds reg := by
  unfold broadcastReviewNotification
  rw [broadcast_fold]
  simp

/-- C1: a call to `broadcastReviewNotification` sends the serialised
notification on exactly the registered connections whose `readyState` is
`OPEN` at scan time; the registry afterwards retains exactly the registered
entries that are neither `CLOSED` nor `CLOSING` nor `OPEN` with a throwing
`send` (those are removed), every survivor unchanged and in order. -/
theorem claim1_broadcast_review_cleanup (reg : Registry)
    (h : (reg.map Prod.fst).Nodup) :
    (broadcastReviewNotification reg).1 = openIds reg ∧
    (broadcastReviewNotification reg).2 =
      reg.filter (fun p => keepAfterBroadcast p.2) :=
  ⟨broadcast_sent_eq reg, broadcast_registry_eq h⟩

/-- A five-connection registry exercising every case of C1. -/
def regW : Registry :=
  [("a", ⟨ReadyState.OPEN, true⟩), ("b", ⟨ReadyState.CLOSED, true⟩),
   ("c", ⟨ReadyState.CLOSING, true⟩), ("d", ⟨ReadyState.OPEN, false⟩),
   ("e", ⟨ReadyState.CONNECTING, true⟩)]

/-- C1 witness: concrete evaluation of the broadcast on `regW`. -/
theorem claim1_broadcast_review_cleanup_witness :
    (regW.map Prod.fst).Nodup ∧
    ((broadcastReviewNotification regW).1 = openIds regW ∧
      (broadcastReviewNotification regW).2 =
        regW.filter (fun p => keepAfterBroadcast p.2)) :=
  ⟨by decide, claim1_broadcast_review_cleanup regW (by decide)⟩

/-- When no `OPEN` connection's send throws, the chat send loop delivers to
every `OPEN` connection in order. -/
theorem chat_loop_ok (reg : Registry) (s : List String)
    (hok : ∀ p ∈ reg, p.2.readyState = ReadyState.OPEN → p.2.sendOk = true) :
    chatSendLoop reg s = .ok (s ++ openIds reg) := by
  induction reg generalizing s with
  | nil => simp [chatSendLoop, openIds]
  | cons p rest ih =>
    have hrest : ∀ q ∈ rest, q.2.readyState = ReadyState.OPEN → q.2.sendOk = true :=
      fun q hq => hok q (List.mem_cons_of_mem p hq)
    by_cases hopen : p.2.readyState = ReadyState.OPEN
    · have hsend : p.2.sendOk = true := hok p (List.mem_cons_self p rest) hopen
      simp [chatSendLoop, hopen, hsend, ih _ hrest, openIds]
    · simp [chatSendLoop, hopen, ih _ hrest, openIds]

/-- C2 counterexample: the chat-client registry holds a single `CLOSED`
connection; `broadcastMessage` returns the registry unchanged, so the closed
connection is NOT removed, contrary to the claim's cleanup clause. -/
theorem claim2_counterexample :
    broadcastMessage [("a", ⟨ReadyState.CLOSED, true⟩)] =
      .ok ([], [("a", ⟨ReadyState.CLOSED, true⟩)]) ∧
    ("a", (⟨ReadyState.CLOSED, true⟩ : Conn)) ∈
      registryAfter [("a", ⟨ReadyState.CLOSED, true⟩)] := by
  constructor
  · rfl
  · decide

/-- C2 (amended): the chat `broadcastMessage` sends the serialised message to
every chat-client connection whose `readyState` is `OPEN` (when no send
throws), but — unlike the review-notification broadcast — performs no
cleanup at all: the chat-client registry is left unchanged by every call,
whether or not any connection is closed or a send fails. -/
theorem claim2_chat_broadcast_no_cleanup (reg : Registry)
    (hok : ∀ p ∈ reg, p.2.readyState = ReadyState.OPEN → p.2.sendOk = true) :
    broadcastMessage reg = .ok (openIds reg, reg) ∧
    ∀ reg' : Registry, registryAfter reg' = reg' := by
  constructor
  · unfold broadcastMessage
    rw [chat_loop_ok reg [] hok]
    rfl
  · intro reg'
    unfold registryAfter broadcastMessage
    cases chatSendLoop reg' [] <;> rfl

/-- C2 witness: concrete evaluation on a mixed registry. -/
theorem claim2_chat_broadcast_no_cleanup_witness :
    (∀ p ∈ ([("a", ⟨ReadyState.OPEN, true⟩), ("b", ⟨ReadyState.CLOSED, true⟩)] : Registry),
        p.2.readyState = ReadyState.OPEN → p.2.sendOk = true) ∧
    (broadcastMessage [("a", ⟨ReadyState.OPEN, true⟩), ("b", ⟨ReadyState.CLOSED, true⟩)] =
        .ok (openIds [("a", ⟨ReadyState.OPEN, true⟩), ("b", ⟨ReadyState.CLOSED, true⟩)],
          [("a", ⟨ReadyState.OPEN, true⟩), ("b", ⟨ReadyState.CLOSED, true⟩)]) ∧
      ∀ reg' : Registry, registryAfter reg' = reg') :=
  ⟨by decide, claim2_chat_broadcast_no_cleanup _ (by decide)⟩

/-- C6 counterexample: a registered connection in state `CLOSING` is removed
from the registry by a `broadcastReviewNotification` scan — an event that is
not the firing of the connection's close or error handler — refuting the
claim's "removed exactly when the close or error handler fires". -/
theorem claim6_counterexample :
    stepReview [("a", ⟨ReadyState.CLOSING, true⟩)] WsEvent.broadcastFired = [] ∧
    isHandlerRemoval WsEvent.broadcastFired = false := by
  constructor
  · rfl
  · rfl

/-- C6 (amended): a successful upgrade at `/ws/reviews` with a freshly
generated id adds exactly one entry, keyed by that id, at the end of the
registry, leaving every previously registered entry unchanged; the entry is
removed when the connection's close or error handler fires, or when a
broadcast scan finds the connection `CLOSED`/`CLOSING` or its send throws. -/
theorem claim6_register_and_remove (reg : Registry) (cid : String) (ws : Conn)
    (hfresh : cid ∉ reg.map Prod.fst) (hnodup : (reg.map Prod.fst).Nodup) :
    stepReview reg (.upgradeConn cid ws) = reg ++ [(cid, ws)] ∧
    stepReview reg (.closeFired cid) = reg.filter (fun p => !(p.1 = cid : Bool)) ∧
    stepReview reg (.errorFired cid) = reg.filter (fun p => !(p.1 = cid : Bool)) ∧
    stepReview reg .broadcastFired = reg.filter (fun p => keepAfterBroadcast p.2) := by
  refine ⟨?_, rfl, rfl, broadcast_registry_eq hnodup⟩
  have hany : reg.any (fun p => p.1 = cid) = false := by
    simp only [List.any_eq_false, decide_eq_true_eq]
    intro p hp hkey
    exact hfresh (hkey ▸ List.mem_map_of_mem Prod.fst hp)
  simp [stepReview, listSet, hany]

/-- C6 witness: a fresh upgrade onto a one-entry registry, then the removal
behaviours, evaluated concretely. -/
theorem claim6_register_and_remove_witness :
    ("b" ∉ ([("a", ⟨ReadyState.OPEN, true⟩)] : Registry).map Prod.fst ∧
      (([("a", ⟨ReadyState.OPEN, true⟩)] : Registry).map Prod.fst).Nodup) ∧
    (stepReview [("a", ⟨ReadyState.OPEN, true⟩)]
        (.upgradeConn "b" ⟨ReadyState.OPEN, true⟩) =
        [("a", ⟨ReadyState.OPEN, true⟩)] ++ [("b", ⟨ReadyState.OPEN, true⟩)] ∧
      stepReview [("a", ⟨ReadyState.OPEN, true⟩)] (.closeFired "b") =
        ([("a", ⟨ReadyState.OPEN, true⟩)] : Registry).filter (fun p => !(p.1 = "b" : Bool)) ∧
      stepReview [("a", ⟨ReadyState.OPEN, true⟩)] (.errorFired "b") =
        ([("a", ⟨ReadyState.OPEN, true⟩)] : Registry).filter (fun p => !(p.1 = "b" : Bool)) ∧
      stepReview [("a", ⟨ReadyState.OPEN, true⟩)] .broadcastFired =
        ([("a", ⟨ReadyState.OPEN, true⟩)] : Registry).filter
          (fun p => keepAfterBroadcast p.2)) :=
  ⟨⟨by decide, by decide⟩,
    claim6_register_and_remove _ "b" ⟨ReadyState.OPEN, true⟩ (by decide) (by decide)⟩

/-- A SQL `UPDATE` of rating/content/updated_at leaves each row's
`(user_id, game_id)` pair intact, so the uniqueness invariant survives. -/
theorem unique_update {t : Table} (h : uniquePerUserGame t) (id : Nat)
    (rating : Rat) (content : String) (now : Nat) :
    uniquePerUserGame (dbUpdateReview t id rating content now) := by
  unfold dbUpdateReview
  rw [uniquePerUserGame, List.pairwise_map]
  refine h.imp ?_
  intro a b hab hcontra
  apply hab
  rcases hcontra with ⟨hu, hg⟩
  constructor
  · revert hu; split <;> split <;> exact fun x => x
  · revert hg; split <;> split <;> exact fun x => x

/-- Appending a row whose `(user_id, game_id)` pair is absent preserves the
uniqueness invariant. -/
theorem unique_insert {t : Table} (h : uniquePerUserGame t) (rr : ReviewRow)
    (hnone : ∀ r ∈ t, ¬(r.user_id = rr.user_id ∧ r.game_id = rr.game_id)) :
    uniquePerUserGame (t ++ [rr]) := by
  rw [uniquePerUserGame, List.pairwise_append]
  refine ⟨h, by simp, fun a ha b hb => ?_⟩
  rcases List.mem_singleton.mp hb with rfl
  exact hnone a ha

/-- An empty `getUserGameReview` lookup means no row of the table carries the
pair. -/
theorem getUserGameReview_none {t : Table} {u g : Nat}
    (h : getUserGameReview u g t = none) :
    ∀ r ∈ t, ¬(r.user_id = u ∧ r.game_id = g) := by
  intro r hr
  have := List.find?_eq_none.mp h r hr
  simpa using this

/-- A successful `createOrUpdateReview` preserves the uniqueness invariant. -/
theorem createOrUpdateReview_preserves {t : Table} (h : uniquePerUserGame t)
    (games : List Nat) (u g : Nat) (rating : Rat) (content : String)
    (nextId now : Nat) {t' : Table}
    (hok : createOrUpdateReview games u g rating content nextId now t = .ok t') :
    uniquePerUserGame t' := by
  unfold createOrUpdateReview at hok
  by_cases hc : games.contains g
  · rw [if_pos hc] at hok
    cases hfind : getUserGameReview u g t with
    | some existing =>
      rw [hfind] at hok
      cases hok
      exact unique_update h _ _ _ _
    | none =>
      rw [hfind] at hok
      cases hok
      exact unique_insert h _ (fun r hr => by
        simpa using getUserGameReview_none hfind r hr)
  · rw [if_neg hc] at hok
    cases hok

/-- One review-submission step (service layer) preserves the invariant. -/
theorem applyReviewOp_preserves (games : List Nat) {t : Table}
    (h : uniquePerUserGame t) (op : ReviewOp) :
    uniquePerUserGame (applyReviewOp games t op) := by
  unfold applyReviewOp
  cases hres : createOrUpdateReview games op.userId op.gameId op.rating
      op.content op.nextId op.now t with
  | ok t' => exact createOrUpdateReview_preserves h _ _ _ _ _ _ _ hres
  | error e => exact h

/-- Any sequence of review-submission operations preserves the invariant. -/
theorem foldl_reviewOps_preserves (games : List Nat) (ops : List ReviewOp)
    {t : Table} (h : uniquePerUserGame t) :
    uniquePerUserGame (ops.foldl (applyReviewOp games) t) := by
  induction ops generalizing t with
  | nil => exact h
  | cons op rest ih => exact ih (applyReviewOp_preserves games h op)

/-- The ad hoc review router's `POST /` handler also preserves the
invariant: it updates the existing row when one matches, and only inserts
when the lookup came back empty. -/
theorem handleAddReview_preserves (user : Option (Nat × String))
    (body : AddReviewBody) (nextId now : Nat) {t : Table}
    (h : uniquePerUserGame t) :
    uniquePerUserGame (handleAddReview user body nextId now t).2 := by
  unfold handleAddReview
  cases user with
  | none => exact h
  | some u =>
    dsimp only
    by_cases h1 : body.gameId = none ∨ body.gameId = some 0
    · rw [if_pos h1]; exact h
    · rw [if_neg h1]
      by_cases h2 : body.content = none ∨ (body.content.getD "").trim = ""
      · rw [if_pos h2]; exact h
      · rw [if_neg h2]
        cases body.rating with
        | none => exact h
        | some q =>
          dsimp only
          by_cases h3 : q = 0 ∨ q < 1 ∨ 5 < q
          · rw [if_pos h3]; exact h
          · rw [if_neg h3]
            cases hfind : t.find? (fun r =>
                decide (r.game_id = body.gameId.getD 0 ∧ r.user_id = u.1)) with
            | some existing =>
              exact unique_update h _ _ _ _
            | none =>
              refine unique_insert h _ (fun r hr => ?_)
              have := List.find?_eq_none.mp hfind r hr
              simp only [decide_eq_true_eq, not_and] at this ⊢
              intro hu hg
              exact this hg (by simpa using hu)

/-- C3: every sequence of review-creation/update operations through
`createOrUpdateReview` (and likewise every request through the ad hoc
router's `POST /` handler) preserves the at-most-one-review-per
`(user_id, game_id)` invariant; when the requester already has a review of
the game, `createOrUpdateReview` updates that row in place — the table keeps
its length, no second row appears — and the `user_game_ratings` schema
variant declares `UNIQUE (user_id, game_id)`. -/
theorem claim3_review_unique_invariant (games : List Nat) (ops : List ReviewOp)
    (t : Table) (h : uniquePerUserGame t) :
    uniquePerUserGame (ops.foldl (applyReviewOp games) t) ∧
    (∀ user body nextId now t₂, uniquePerUserGame t₂ →
        uniquePerUserGame (handleAddReview user body nextId now t₂).2) ∧
    (∀ u g rating content nextId now r, g ∈ games →
        getUserGameReview u g t = some r →
        createOrUpdateReview games u g rating content nextId now t =
          .ok (dbUpdateReview t r.id rating content now) ∧
        (dbUpdateReview t r.id rating content now).length = t.length) ∧
    SchemaConstraint.uniqueCols ["user_id", "game_id"] ∈
      user_game_ratings_constraints := by
  refine ⟨foldl_reviewOps_preserves games ops h,
    fun user body nextId now t₂ h₂ =>
      handleAddReview_preserves user body nextId now h₂, ?_, by decide⟩
  intro u g rating content nextId now r hg hfind
  refine ⟨?_, by unfold dbUpdateReview; exact List.length_map t _⟩
  unfold createOrUpdateReview
  rw [if_pos (by simpa [List.elem_iff] using hg), hfind]

/-- C3 witness: two submissions by the same user for the same game starting
from the empty table. -/
theorem claim3_review_unique_invariant_witness :
    uniquePerUserGame ([] : Table) ∧
    uniquePerUserGame
      (([⟨3, 1, 4, "great", 7, 0⟩, ⟨3, 1, 5, "better", 8, 1⟩] :
          List ReviewOp).foldl (applyReviewOp [1]) ([] : Table)) :=
  ⟨by decide,
    (claim3_review_unique_invariant [1]
      [⟨3, 1, 4, "great", 7, 0⟩, ⟨3, 1, 5, "better", 8, 1⟩]
      [] (by decide)).1⟩

/-- C4: an authenticated review submission whose rating is missing, below 1,
or above 5 is answered 400 by the review router with the table untouched;
the Zod validation layer accepts exactly the integer ratings 1 through 5;
and the `user_game_ratings` schema variant bounds `rating` to 1..10 via its
`CHECK` constraint. -/
theorem claim4_rating_validation :
    (∀ (u : Nat × String) (body : AddReviewBody) (nextId now : Nat) (t : Table),
        ratingInvalid body.rating →
        handleAddReview (some u) body nextId now t = (400, t)) ∧
    (∀ q : Rat, reviewRatingCheck q ↔ ∃ n : Int, 1 ≤ n ∧ n ≤ 5 ∧ q = (n : Rat)) ∧
    SchemaConstraint.checkRatingBetween 1 10 ∈ user_game_ratings_constraints := by
  refine ⟨?_, ?_, by decide⟩
  · intro u body nextId now t hinv
    unfold handleAddReview
    dsimp only
    by_cases h1 : body.gameId = none ∨ body.gameId = some 0
    · rw [if_pos h1]
    · rw [if_neg h1]
      by_cases h2 : body.content = none ∨ (body.content.getD "").trim = ""
      · rw [if_pos h2]
      · rw [if_neg h2]
        cases hrating : body.rating with
        | none => rfl
        | some q =>
          rw [hrating] at hinv
          simp only [ratingInvalid] at hinv
          dsimp only
          rw [if_pos hinv]
  · intro q
    constructor
    · rintro ⟨hden, hmin, hmax⟩
      have hq : (q.num : Rat) = q := (Rat.den_eq_one_iff q).mp hden
      unfold MIN_RATING at hmin
      unfold MAX_RATING at hmax
      refine ⟨q.num, ?_, ?_, hq.symm⟩
      · exact_mod_cast hq ▸ hmin
      · exact_mod_cast hq ▸ hmax
    · rintro ⟨n, h1, h5, rfl⟩
      refine ⟨Rat.den_intCast n, ?_, ?_⟩
      · unfold MIN_RATING; exact_mod_cast h1
      · unfold MAX_RATING; exact_mod_cast h5

/-- C4 witness: a rating of 6 is rejected with 400 and an untouched table;
3 passes the Zod rating check, 6 does not. -/
theorem claim4_rating_validation_witness :
    ratingInvalid (some (6 : Rat)) ∧
    handleAddReview (some (7, "u")) ⟨some 2, some "nice", some 6⟩ 1 0 [] =
      (400, []) ∧
    reviewRatingCheck 3 :=
  ⟨by decide,
    claim4_rating_validation.1 (7, "u") ⟨some 2, some "nice", some 6⟩ 1 0 []
      (by decide),
    by decide⟩

/-- C9: `deleteReview` (and the router's `DELETE /:id`) deletes a review only
when the requester owns it: when no row carries the id, or the owning user
differs, the service throws `NotFoundError`, the route answers 404, and the
table is untouched; when the requester is the author, the row — and only
that row — is deleted and the route answers 200. -/
theorem claim9_delete_review_ownership (userId reviewId : Nat) (t : Table)
    (hids : (t.map ReviewRow.id).Nodup) :
    ((∀ r ∈ t, r.id = reviewId → r.user_id ≠ userId) →
        deleteReview userId reviewId t = .error .notFound ∧
        ∀ uname, handleDeleteReview (some (userId, uname)) reviewId t = (404, t)) ∧
    (∀ r ∈ t, r.id = reviewId → r.user_id = userId →
        deleteReview userId reviewId t = .ok (true, dbDeleteReview t reviewId) ∧
        (∀ uname, handleDeleteReview (some (userId, uname)) reviewId t =
          (200, dbDeleteReview t reviewId)) ∧
        r ∉ dbDeleteReview t reviewId ∧
        ∀ s ∈ t, s.id ≠ reviewId → s ∈ dbDeleteReview t reviewId) := by
  constructor
  · intro hno
    constructor
    · unfold deleteReview
      cases hfind : getReviewById reviewId t with
      | none => rfl
      | some r₀ =>
        have hmem : r₀ ∈ t := List.mem_of_find?_eq_some hfind
        have hid : r₀.id = reviewId := by
          have := List.find?_some hfind
          simpa using this
        dsimp only
        rw [if_pos (hno r₀ hmem hid)]
    · intro uname
      unfold handleDeleteReview
      dsimp only
      cases hfind : t.find? (fun r => decide (r.id = reviewId ∧ r.user_id = userId)) with
      | none => rfl
      | some r₀ =>
        have hmem : r₀ ∈ t := List.mem_of_find?_eq_some hfind
        have hpred := List.find?_some hfind
        simp only [decide_eq_true_eq] at hpred
        exact absurd hpred.2 (hno r₀ hmem hpred.1)
  · intro r hr hid howner
    have hdel_not : r ∉ dbDeleteReview t reviewId := by
      intro hmem
      have := (List.mem_filter.mp hmem).2
      simp [hid] at this
    have hdel_keep : ∀ s ∈ t, s.id ≠ reviewId → s ∈ dbDeleteReview t reviewId := by
      intro s hs hsid
      exact List.mem_filter.mpr ⟨hs, by simpa using hsid⟩
    refine ⟨?_, ?_, hdel_not, hdel_keep⟩
    · unfold deleteReview
      cases hfind : getReviewById reviewId t with
      | none =>
        have := List.find?_eq_none.mp hfind r hr
        simp [hid] at this
      | some r₀ =>
        have hmem : r₀ ∈ t := List.mem_of_find?_eq_some hfind
        have hid₀ : r₀.id = reviewId := by
          have := List.find?_some hfind
          simpa using this
        have : r₀ = r :=
          List.inj_on_of_nodup_map hids hmem hr (by rw [hid₀, hid])
        subst this
        dsimp only
        rw [if_neg (by simp [howner])]
        have hpos : 0 < (t.filter (fun s => s.id = reviewId)).length := by
          have : r₀ ∈ t.filter (fun s => s.id = reviewId) :=
            List.mem_filter.mpr ⟨hr, by simpa using hid⟩
          exact List.length_pos.mpr (List.ne_nil_of_mem this)
        simp [hpos]
    · intro uname
      unfold handleDeleteReview
      dsimp only
      cases hfind : t.find? (fun s => decide (s.id = reviewId ∧ s.user_id = userId)) with
      | none =>
        have := List.find?_eq_none.mp hfind r hr
        simp [hid, howner] at this
      | some r₀ => rfl

/-- Filtering a game's rows out of an already-filtered table changes
nothing. -/
theorem filter_game_idem (g : Nat) (t : Table) :
    (t.filter (fun r => decide (r.game_id = g))).filter
        (fun r => decide (r.game_id = g)) =
      t.filter (fun r => decide (r.game_id = g)) := by
  rw [List.filter_filter]
  exact List.filter_congr (fun r hr => by cases h : decide (r.game_id = g) <;> simp [h])

/-- C5: the per-game ratings endpoint recomputes its statistics from the
stored review rows on every query: with no failure injected it returns, for
a game with no review rows, `average_rating` 0 tenths (the string `"0.0"`)
and `rating_count` 0, and otherwise the row count and the arithmetic mean of
the stored ratings to one decimal place; the response depends only on that
game's stored rows; and `GameService.getGameRatingStats` recomputes the same
statistics. -/
theorem claim5_per_game_ratings (g : Nat) (t : Table) :
    handleGameRatings (some g) t false false =
      ⟨200, .ratings (specRatingsBody g t)⟩ ∧
    handleGameRatings (some g) t false false =
      handleGameRatings (some g) (t.filter (fun r => r.game_id = g)) false false ∧
    ∀ games : List Nat, g ∈ games →
      getGameRatingStats games g t =
        .ok ((specRatingsBody g t).average_rating,
             (specRatingsBody g t).rating_count) := by
  refine ⟨?_, ?_, ?_⟩
  · simp only [handleGameRatings, specRatingsBody, gameCount, gameAvg]
    by_cases hc : (t.filter (fun r => decide (r.game_id = g))).length = 0
    · simp [hc]
    · simp [hc]
  · have hcnt : gameCount g (t.filter (fun r => decide (r.game_id = g))) =
        gameCount g t := by
      unfold gameCount
      rw [filter_game_idem]
    have havg : gameAvg g (t.filter (fun r => decide (r.game_id = g))) =
        gameAvg g t := by
      unfold gameAvg
      rw [filter_game_idem]
    simp only [handleGameRatings, hcnt, havg]
  · intro games hg
    unfold getGameRatingStats
    rw [if_pos (by simpa [List.elem_iff] using hg)]
    unfold specRatingsBody toFixedTenths
    by_cases hc : (t.filter (fun r => decide (r.game_id = g))).length = 0
    · rw [if_pos hc]
      simp [hc]
      norm_num
    · rw [if_neg hc]
      simp [hc]

/-- C5 witness: a two-review game and a review-less game, evaluated. -/
theorem claim5_per_game_ratings_witness :
    (2 : Nat) ∈ ([2] : List Nat) ∧
    getGameRatingStats [2] 2 [⟨1, 2, 3, 4, "good", 0, 0⟩, ⟨2, 2, 5, 5, "fine", 0, 0⟩] =
      .ok ((specRatingsBody 2 [⟨1, 2, 3, 4, "good", 0, 0⟩, ⟨2, 2, 5, 5, "fine", 0, 0⟩]).average_rating,
           (specRatingsBody 2 [⟨1, 2, 3, 4, "good", 0, 0⟩, ⟨2, 2, 5, 5, "fine", 0, 0⟩]).rating_count) ∧
    handleGameRatings (some 9) [] false false =
      ⟨200, .ratings (specRatingsBody 9 [])⟩ :=
  ⟨by decide,
    (claim5_per_game_ratings 2 [⟨1, 2, 3, 4, "good", 0, 0⟩, ⟨2, 2, 5, 5, "fine", 0, 0⟩]).2.2
      [2] (by decide),
    (claim5_per_game_ratings 9 []).1⟩

/-- C7 counterexample: with one stored review, a failure of the grouped
ratings query inside the all-games handler is converted to status 200 with
an empty-array body — not the claimed status-500 JSON error body. -/
theorem claim7_counterexample :
    handleAllRatings [⟨1, 2, 3, 4, "good", 0, 0⟩] false true =
      ⟨200, .ratingsList []⟩ ∧
    handleAllRatings [⟨1, 2, 3, 4, "good", 0, 0⟩] false true ≠
      ⟨500, .errorMsg "Failed to fetch game ratings"⟩ := by
  constructor
  · rfl
  · decide

/-- C7 (amended): every exception raised inside the two game-ratings route
handlers is caught within the handler and converted into an HTTP response;
the per-game route answers 500 with `Failed to fetch game ratings` for any
query failure and 400 with an error body for a missing game id; the
all-games route answers 500 with that error body when its count query
fails, but a failure of its grouped ratings query after a nonzero count is
converted to 200 with an empty array; every response carries status 200,
400 or 500. -/
theorem claim7_ratings_error_handling :
    (∀ (t : Table) (mf : Bool),
        handleAllRatings t true mf = ⟨500, .errorMsg "Failed to fetch game ratings"⟩) ∧
    (∀ t : Table, t ≠ [] →
        handleAllRatings t false true = ⟨200, .ratingsList []⟩) ∧
    (∀ (t : Table) (cf mf : Bool),
        handleGameRatings none t cf mf = ⟨400, .errorMsg "Game ID is required"⟩) ∧
    (∀ (g : Nat) (t : Table) (mf : Bool),
        handleGameRatings (some g) t true mf =
          ⟨500, .errorMsg "Failed to fetch game ratings"⟩) ∧
    (∀ (g : Nat) (t : Table), gameCount g t ≠ 0 →
        handleGameRatings (some g) t false true =
          ⟨500, .errorMsg "Failed to fetch game ratings"⟩) ∧
    (∀ (t : Table) (cf mf : Bool),
        (handleAllRatings t cf mf).status = 200 ∨
        (handleAllRatings t cf mf).status = 500) ∧
    (∀ (gid : Option Nat) (t : Table) (cf mf : Bool),
        (handleGameRatings gid t cf mf).status = 200 ∨
        (handleGameRatings gid t cf mf).status = 400 ∨
        (handleGameRatings gid t cf mf).status = 500) := by
  refine ⟨fun t mf => rfl, ?_, fun t cf mf => rfl, fun g t mf => rfl, ?_, ?_, ?_⟩
  · intro t ht
    unfold handleAllRatings
    rw [if_neg (by simp), if_neg (by simpa using ht), if_pos rfl]
  · intro g t hc
    unfold handleGameRatings
    dsimp only
    rw [if_neg (by simp), if_neg hc, if_pos rfl]
  · intro t cf mf
    unfold handleAllRatings
    split_ifs <;> simp
  · intro gid t cf mf
    cases gid with
    | none => simp [handleGameRatings]
    | some g =>
      unfold handleGameRatings
      dsimp only
      split_ifs <;> simp

/-- C7 witness: concrete evaluations of the amended behaviours. -/
theorem claim7_ratings_error_handling_witness :
    handleAllRatings [⟨1, 2, 3, 4, "good", 0, 0⟩] true false =
      ⟨500, .errorMsg "Failed to fetch game ratings"⟩ ∧
    handleAllRatings [⟨1, 2, 3, 4, "good", 0, 0⟩] false true =
      ⟨200, .ratingsList []⟩ ∧
    handleGameRatings none [] false false = ⟨400, .errorMsg "Game ID is required"⟩ ∧
    handleGameRatings (some 2) [⟨1, 2, 3, 4, "good", 0, 0⟩] false true =
      ⟨500, .errorMsg "Failed to fetch game ratings"⟩ :=
  ⟨claim7_ratings_error_handling.1 [⟨1, 2, 3, 4, "good", 0, 0⟩] false,
    claim7_ratings_error_handling.2.1 [⟨1, 2, 3, 4, "good", 0, 0⟩] (by decide),
    claim7_ratings_error_handling.2.2.1 [] false false,
    claim7_ratings_error_handling.2.2.2.2.1 2 [⟨1, 2, 3, 4, "good", 0, 0⟩]
      (by decide)⟩

/-- The one-row table of the C9 witness. -/
def tW9 : Table := [⟨1, 2, 3, 4, "good", 0, 0⟩]

/-- C9 witness: user 3 deletes their own review 1 from `tW9`. -/
theorem claim9_delete_review_ownership_witness :
    (tW9.map ReviewRow.id).Nodup ∧
    deleteReview 3 1 tW9 = .ok (true, dbDeleteReview tW9 1) ∧
    handleDeleteReview (some (3, "u")) 1 tW9 = (200, dbDeleteReview tW9 1) :=
  ⟨by decide,
    ((claim9_delete_review_ownership 3 1 tW9 (by decide)).2
      ⟨1, 2, 3, 4, "good", 0, 0⟩ (by decide) (by decide) (by decide)).1,
    ((claim9_delete_review_ownership 3 1 tW9 (by decide)).2
      ⟨1, 2, 3, 4, "good", 0, 0⟩ (by decide) (by decide) (by decide)).2.1 "u"⟩

/-- C8: no `UserService` operation ever returns the stored password hash:
every user object returned by `createUser`, `authenticate`, `updateUser` and
`getAllUsers` has the `password` field removed (the optional field is
`none`) before reaching the caller, for every input, hash function,
password verifier, and token generator. -/
theorem claim8_user_service_strips_password (hash : String → String)
    (vp : String → String → Bool) (tok : Nat → String → String) :
    (∀ username email pw nextId now t r t',
        createUser hash username email pw nextId now t = .ok (r, t') →
        r.password = none) ∧
    (∀ username pw t r token,
        authenticate vp tok username pw t = .ok (r, token) →
        r.password = none) ∧
    (∀ id data now t r t',
        updateUser hash id data now t = .ok (r, t') → r.password = none) ∧
    (∀ limit offset t, ∀ r ∈ (getAllUsers limit offset t).1, r.password = none) := by
  refine ⟨?_, ?_, ?_, ?_⟩
  · intro username email pw nextId now t r t' hok
    unfold createUser at hok
    cases hfu : findByUsername username t with
    | some u => rw [hfu] at hok; simp at hok
    | none =>
      rw [hfu] at hok
      cases hfe : findByEmail email t with
      | some u => rw [hfe] at hok; simp at hok
      | none =>
        rw [hfe] at hok
        dsimp only at hok
        cases hfi : findById nextId (t ++ [⟨nextId, username, email, hash pw, now, now⟩]) with
        | none => rw [hfi] at hok; simp at hok
        | some user =>
          rw [hfi] at hok
          simp only [Except.ok.injEq, Prod.mk.injEq] at hok
          rw [← hok.1]
          rfl
  · intro username pw t r token hok
    unfold authenticate at hok
    cases hfu : findByUsername username t with
    | none => rw [hfu] at hok; simp at hok
    | some user =>
      rw [hfu] at hok
      dsimp only at hok
      by_cases hvp : vp pw user.password
      · rw [if_pos hvp] at hok
        simp only [Except.ok.injEq, Prod.mk.injEq] at hok
        rw [← hok.1]
        rfl
      · rw [if_neg hvp] at hok; simp at hok
  · intro id data now t r t' hok
    unfold updateUser at hok
    cases hfi : findById id t with
    | none => rw [hfi] at hok; simp at hok
    | some existingUser =>
      rw [hfi] at hok
      dsimp only at hok
      split at hok
      · simp at hok
      · cases hfi' : findById id
            (t.map (fun u => if u.id = id then applyUserUpdate hash data now u else u)) with
        | none => rw [hfi'] at hok; simp at hok
        | some updatedUser =>
          rw [hfi'] at hok
          simp only [Except.ok.injEq, Prod.mk.injEq] at hok
          rw [← hok.1]
          rfl
  · intro limit offset t r hr
    unfold getAllUsers at hr
    dsimp only at hr
    rcases List.mem_map.mp hr with ⟨u, hu, rfl⟩
    rfl

/-- C8 witness: a concrete registration on the empty table. -/
theorem claim8_user_service_strips_password_witness :
    createUser (fun p => String.append "hw" p) "alice" "a" "pw" 1 0 [] =
      .ok (⟨1, "alice", "a", 0, 0, none⟩,
           [⟨1, "alice", "a", String.append "hw" "pw", 0, 0⟩]) ∧
    (⟨1, "alice", "a", 0, 0, none⟩ : UserResult).password = none :=
  ⟨by rfl,
    (claim8_user_service_strips_password (fun p => String.append "hw" p)
        (fun _ _ => true) (fun _ _ => "t")).1
      "alice" "a" "pw" 1 0 [] ⟨1, "alice", "a", 0, 0, none⟩
      [⟨1, "alice", "a", String.append "hw" "pw", 0, 0⟩] (by rfl)⟩

/-- A whitelist ite lands in the whitelist when the default is in it. -/
theorem ite_contains_mem (l : List String) (s dflt : String) (hd : dflt ∈ l) :
    (if l.contains s then s else dflt) ∈ l := by
  by_cases h : l.contains s
  · rw [if_pos h]; exact List.elem_iff.mp h
  · rw [if_neg h]; exact hd

/-- C10: the `ORDER BY` fragments of `getGamesWithRatings` and
`getPopularGames` are always drawn from the fixed whitelists
`{title, release_date, avg_rating, review_count}` and `{ASC, DESC}`; any
caller input outside the whitelist falls back to the default, so no
caller-supplied string reaches the generated SQL text. -/
theorem claim10_order_by_whitelist :
    (∀ sortBy sortOrder : String,
        (gamesOrderBy sortBy sortOrder).1 ∈ validSortFields ∧
        (gamesOrderBy sortBy sortOrder).2 ∈ validSortOrders ∧
        (sortBy ∉ validSortFields → (gamesOrderBy sortBy sortOrder).1 = "title") ∧
        (sortOrder ∉ validSortOrders → (gamesOrderBy sortBy sortOrder).2 = "ASC")) ∧
    (∀ ordering : String,
        (popularOrderBy ordering).1 ∈ validSortFields ∧
        (popularOrderBy ordering).2 ∈ validSortOrders) := by
  constructor
  · intro sortBy sortOrder
    refine ⟨ite_contains_mem _ _ _ (by decide), ite_contains_mem _ _ _ (by decide),
      ?_, ?_⟩
    · intro hnot
      unfold gamesOrderBy
      dsimp only
      rw [if_neg (fun hc => hnot (List.elem_iff.mp hc))]
    · intro hnot
      unfold gamesOrderBy
      dsimp only
      rw [if_neg (fun hc => hnot (List.elem_iff.mp hc))]
  · intro ordering
    exact ⟨ite_contains_mem _ _ _ (by decide), ite_contains_mem _ _ _ (by decide)⟩

/-- C10 witness: out-of-whitelist inputs fall back to the defaults. -/
theorem claim10_order_by_whitelist_witness :
    (gamesOrderBy "evil" "junk").1 ∈ validSortFields ∧
    (gamesOrderBy "evil" "junk").2 ∈ validSortOrders ∧
    (gamesOrderBy "evil" "junk").1 = "title" ∧
    (gamesOrderBy "evil" "junk").2 = "ASC" ∧
    (popularOrderBy "-metacritic").1 ∈ validSortFields :=
  ⟨(claim10_order_by_whitelist.1 "evil" "junk").1,
    (claim10_order_by_whitelist.1 "evil" "junk").2.1,
    (claim10_order_by_whitelist.1 "evil" "junk").2.2.1 (by decide),
    (claim10_order_by_whitelist.1 "evil" "junk").2.2.2 (by decide),
    (claim10_order_by_whitelist.2 "-metacritic").1⟩

end GtaBackend
